import Mathlib

/-!
# Verification of the validation/sanitization core of the multimedia-asset backend

Shallow embedding of `src/main.py`.  Python strings are modelled as `List Char`;
Python byte strings as `List Nat`.  The embedding keeps the source's names
(`validate_object_id`, `sanitize_input`, `is_valid_audio_file`,
`is_valid_image_file`, and the request handlers) and translates each body
from the source.
-/

set_option autoImplicit false

namespace MainPy

/-- `leadsWith old s` decides whether `old` occurs at the start of `s`.
This is the match test Python's `str.replace` scan performs at each position. -/
def leadsWith : List Char → List Char → Bool
  | [], _ => true
  | _ :: _, [] => false
  | a :: as, b :: bs => a == b && leadsWith as bs

theorem leadsWith_iff : ∀ (a b : List Char), leadsWith a b = true ↔ ∃ u, a ++ u = b
  | [], b => by simp [leadsWith]
  | _ :: _, [] => by simp [leadsWith]
  | a :: as, b :: bs => by
    simp only [leadsWith, Bool.and_eq_true, beq_iff_eq, leadsWith_iff as bs,
      List.cons_append, List.cons.injEq]
    constructor
    · rintro ⟨rfl, u, rfl⟩; exact ⟨u, rfl, rfl⟩
    · rintro ⟨u, rfl, rfl⟩; exact ⟨rfl, u, rfl⟩

theorem leadsWith_length {a b : List Char} (h : leadsWith a b = true) :
    a.length ≤ b.length := by
  obtain ⟨u, rfl⟩ := (leadsWith_iff a b).mp h
  simp

/-- One call of Python's `result.replace(old, new)` on `List Char`: scan left to
right, replacing each non-overlapping occurrence of `old` by `new`.  The
denylist in the source contains no empty pattern, so the empty-pattern branch
(where CPython would interleave `new` between characters) is never exercised;
this model returns the string unchanged there. -/
def pyReplace (s old new : List Char) : List Char :=
  if h0 : old.length = 0 then s
  else if hl : leadsWith old s = true then
    new ++ pyReplace (s.drop old.length) old new
  else
    match s with
    | [] => []
    | c :: t => c :: pyReplace t old new
termination_by s.length
decreasing_by
  · have h1 : old.length ≤ s.length := leadsWith_length hl
    have h2 : 0 < old.length := Nat.pos_of_ne_zero h0
    simp only [List.length_drop]
    omega
  · simp

theorem pyReplace_nil (old new : List Char) : pyReplace [] old new = [] := by
  rw [pyReplace.eq_def]
  by_cases h0 : old.length = 0
  · simp [h0]
  · have hl : leadsWith old [] = false := by
      cases old with
      | nil => simp at h0
      | cons x xs => rfl
    simp [h0, hl]

theorem pyReplace_lead {old : List Char} (s new : List Char)
    (h0 : old.length ≠ 0) (hl : leadsWith old s = true) :
    pyReplace s old new = new ++ pyReplace (s.drop old.length) old new := by
  rw [pyReplace.eq_def]
  simp [h0, hl]

theorem pyReplace_cons_neg {old : List Char} (c : Char) (t new : List Char)
    (h0 : old.length ≠ 0) (hl : leadsWith old (c :: t) = false) :
    pyReplace (c :: t) old new = c :: pyReplace t old new := by
  rw [pyReplace.eq_def]
  simp [h0, hl]

/-- Deleting a single-character pattern is exactly a character filter. -/
theorem pyReplace_single (c : Char) : ∀ s : List Char,
    pyReplace s [c] [] = s.filter (fun d => !(d == c))
  | [] => by simp [pyReplace_nil]
  | d :: t => by
    have h0 : ([c] : List Char).length ≠ 0 := by simp
    by_cases hcd : c = d
    · subst hcd
      have hl : leadsWith [c] (c :: t) = true := by simp [leadsWith]
      rw [pyReplace_lead _ _ h0 hl]
      simp [List.filter_cons, pyReplace_single c t]
    · have hl : leadsWith [c] (d :: t) = false := by
        simp [leadsWith, hcd]
      rw [pyReplace_cons_neg _ _ _ h0 hl]
      have hne : (d == c) = false := by
        exact beq_eq_false_iff_ne.mpr (Ne.symm hcd)
      simp [List.filter_cons, hne, pyReplace_single c t]

/-- If some character of the pattern does not occur in the string, the
replacement pass is the identity. -/
theorem pyReplace_of_not_mem {ch : Char} {old : List Char} (hc : ch ∈ old) :
    ∀ s : List Char, ch ∉ s → pyReplace s old [] = s := by
  have h0 : old.length ≠ 0 := by
    cases old with
    | nil => simp at hc
    | cons x xs => simp
  intro s
  induction s with
  | nil => intro _; exact pyReplace_nil _ _
  | cons d t ih =>
    intro hns
    have hl : leadsWith old (d :: t) = false := by
      cases hll : leadsWith old (d :: t) with
      | false => rfl
      | true =>
        obtain ⟨u, hu⟩ := (leadsWith_iff _ _).mp hll
        have : ch ∈ d :: t := by
          rw [← hu]
          exact List.mem_append.mpr (Or.inl hc)
        exact absurd this hns
    rw [pyReplace_cons_neg _ _ _ h0 hl]
    have hnt : ch ∉ t := fun h => hns (List.mem_cons_of_mem _ h)
    rw [ih hnt]

/-- A Python value, as far as this layer distinguishes: a string, an int, or
`None`.  Handlers receive strings; the validator and sanitizer also accept
non-string input. -/
inductive PyVal where
  | str (s : List Char)
  | num (n : Int)
  | pyNone
deriving DecidableEq

/-- The exception kinds relevant to the validation layer.  `invalidId` and
`typeError` are the two classes the validator's `except` clause catches; the
other kinds stand for exceptions it would not catch. -/
inductive PyExc where
  | invalidId
  | typeError
  | valueError
  | attributeError
deriving DecidableEq

/-- A hexadecimal digit, either case. -/
def isHexChar (c : Char) : Bool :=
  ('0' ≤ c && c ≤ '9') || ('a' ≤ c && c ≤ 'f') || ('A' ≤ c && c ≤ 'F')

/-- A 24-character hexadecimal string: the document store's identifier format. -/
def isHex24 (s : List Char) : Bool :=
  decide (s.length = 24) && s.all isHexChar

/-- Modelled from the spec: the `bson.ObjectId` constructor called by
`validate_object_id` is third-party code not present in `src/`.  Per the spec,
an identifier is syntactically valid iff it is a 24-character hexadecimal
string, and non-string input is treated as invalid rather than succeeding;
the constructor signals failure with `InvalidId` for a malformed string and
`TypeError` for a non-string value. -/
def objectIdTry : PyVal → Except PyExc Unit
  | PyVal.str s => if isHex24 s then Except.ok () else Except.error PyExc.invalidId
  | _ => Except.error PyExc.typeError

/-- `validate_object_id` from `src/main.py`: attempt to build an `ObjectId`,
return `True` on success, and catch exactly `(errors.InvalidId, TypeError)`
to return `False`.  Any other exception kind would propagate, which the
`Except.error` branch records. -/
def validate_object_id (v : PyVal) : Except PyExc Bool :=
  match objectIdTry v with
  | Except.ok _ => Except.ok true
  | Except.error PyExc.invalidId => Except.ok false
  | Except.error PyExc.typeError => Except.ok false
  | Except.error e => Except.error e

/-- The `dangerous_patterns` list of `sanitize_input`, in source order. -/
def dangerous_patterns : List (List Char) :=
  ["$".data, "\x7b".data, "\x7d".data, ".".data, "$where".data, "$regex".data,
   "$gt".data, "$lt".data, "$gte".data, "$lte".data, "$ne".data, "$nin".data,
   "$and".data, "$or".data, "$not".data, "$nor".data]

/-- The string path of `sanitize_input`: fold `result = result.replace(p, "")`
over `dangerous_patterns` in order. -/
def sanitizeStr (s : List Char) : List Char :=
  dangerous_patterns.foldl (fun r p => pyReplace r p []) s

/-- `sanitize_input` from `src/main.py`: non-string input is returned
unchanged (the `isinstance` guard); a string is processed by the denylist
fold. -/
def sanitize_input (v : PyVal) : PyVal :=
  match v with
  | PyVal.str s => PyVal.str (sanitizeStr s)
  | w => w

/-- The characters the sanitizer ends up deleting. -/
def keepChar (c : Char) : Bool :=
  !(c == '$' || c == '\x7b' || c == '\x7d' || c == '.')

theorem filter_chain_eq (s : List Char) :
    ((((s.filter (fun d => !(d == '$'))).filter
        (fun d => !(d == '\x7b'))).filter
        (fun d => !(d == '\x7d'))).filter
        (fun d => !(d == '.'))) = s.filter keepChar := by
  simp only [List.filter_filter]
  apply List.filter_congr
  intro c _
  cases h1 : (c == '$') <;> cases h2 : (c == '\x7b') <;>
    cases h3 : (c == '\x7d') <;> cases h4 : (c == '.') <;>
    simp [keepChar, h1, h2, h3, h4]

/-- The sanitizer deletes `"$"` before any `"$"`-prefixed operator token is
tried, so the token passes find nothing: the whole fold collapses to a
character filter removing `$`, `\x7b`, `\x7d` and `.`. -/
theorem sanitizeStr_eq_filter (s : List Char) : sanitizeStr s = s.filter keepChar := by
  have noop : ∀ (tok : List Char), '$' ∈ tok →
      ∀ u : List Char, '$' ∉ u → pyReplace u tok [] = u :=
    fun _ h u hu => pyReplace_of_not_mem h u hu
  unfold sanitizeStr dangerous_patterns
  simp only [List.foldl_cons, List.foldl_nil]
  rw [pyReplace_single, pyReplace_single, pyReplace_single,
    pyReplace_single, filter_chain_eq]
  have hF : '$' ∉ s.filter keepChar := by
    intro h
    have := (List.mem_filter.mp h).2
    simp [keepChar] at this
  rw [noop ['$', 'w', 'h', 'e', 'r', 'e'] (by decide) _ hF]
  rw [noop ['$', 'r', 'e', 'g', 'e', 'x'] (by decide) _ hF]
  rw [noop ['$', 'g', 't'] (by decide) _ hF]
  rw [noop ['$', 'l', 't'] (by decide) _ hF]
  rw [noop ['$', 'g', 't', 'e'] (by decide) _ hF]
  rw [noop ['$', 'l', 't', 'e'] (by decide) _ hF]
  rw [noop ['$', 'n', 'e'] (by decide) _ hF]
  rw [noop ['$', 'n', 'i', 'n'] (by decide) _ hF]
  rw [noop ['$', 'a', 'n', 'd'] (by decide) _ hF]
  rw [noop ['$', 'o', 'r'] (by decide) _ hF]
  rw [noop ['$', 'n', 'o', 't'] (by decide) _ hF]
  rw [noop ['$', 'n', 'o', 'r'] (by decide) _ hF]

theorem not_mem_sanitizeStr {c : Char} (hc : keepChar c = false) (s : List Char) :
    c ∉ sanitizeStr s := by
  rw [sanitizeStr_eq_filter]
  intro h
  have := (List.mem_filter.mp h).2
  rw [hc] at this
  exact Bool.false_ne_true this

/-- `t` occurs as a contiguous substring of `s`. -/
def isSubstringOf (t s : List Char) : Prop := ∃ u v, u ++ t ++ v = s

/-- The operator-keyword tokens of the denylist. -/
def opTokens : List (List Char) :=
  ["$where".data, "$regex".data, "$gt".data, "$lt".data, "$gte".data,
   "$lte".data, "$ne".data, "$nin".data, "$and".data, "$or".data,
   "$not".data, "$nor".data]

theorem opTokens_have_dollar : ∀ t ∈ opTokens, '$' ∈ t := by decide

theorem no_token_in_sanitizeStr {t : List Char} (ht : t ∈ opTokens) (s : List Char) :
    ¬ isSubstringOf t (sanitizeStr s) := by
  rintro ⟨u, v, huv⟩
  have hd : '$' ∈ t := opTokens_have_dollar t ht
  have : '$' ∈ sanitizeStr s := by
    rw [← huv]
    exact List.mem_append.mpr (Or.inl (List.mem_append.mpr (Or.inr hd)))
  exact not_mem_sanitizeStr (by decide) s this

/-- Python's `s.endswith(ext)`: `ext` is a suffix of `s`.  Implemented by
matching the reversed extension at the start of the reversed string. -/
def endsWithList (s ext : List Char) : Bool :=
  leadsWith ext.reverse s.reverse

theorem endsWithList_iff (s ext : List Char) :
    endsWithList s ext = true ↔ ∃ pre, pre ++ ext = s := by
  unfold endsWithList
  rw [leadsWith_iff]
  constructor
  · rintro ⟨u, hu⟩
    refine ⟨u.reverse, ?_⟩
    have := congrArg List.reverse hu
    simpa using this
  · rintro ⟨pre, rfl⟩
    exact ⟨pre.reverse, by simp⟩

/-- `is_valid_audio_file` from `src/main.py`: `if not filename: return False`
(both `None` and the empty string are falsy), then
`filename.lower().endswith('.mp3')`.  `str.lower` is modelled as per-character
ASCII case folding, which is exact on the filename alphabets at issue. -/
def is_valid_audio_file : Option (List Char) → Bool
  | Option.none => false
  | some f =>
    if f = [] then false
    else endsWithList (f.map Char.toLower) ".mp3".data

/-- `is_valid_image_file` from `src/main.py`: falsy filenames rejected, then
`filename.lower().endswith(('.png', '.jpg', '.jpeg'))` (a tuple argument is a
disjunction over the suffixes). -/
def is_valid_image_file : Option (List Char) → Bool
  | Option.none => false
  | some f =>
    if f = [] then false
    else
      endsWithList (f.map Char.toLower) ".png".data ||
      endsWithList (f.map Char.toLower) ".jpg".data ||
      endsWithList (f.map Char.toLower) ".jpeg".data

/-- `is_valid_image_file` on an arbitrary Python value, with the exception
channel: `if not filename` short-circuits every falsy value (`None`, `""`,
`0`) to `False`; a truthy non-string then reaches `filename.lower()`, which
raises `AttributeError` because the value has no such attribute.  On strings
and `None` it agrees with `is_valid_image_file`. -/
def is_valid_image_file_py : PyVal → Except PyExc Bool
  | PyVal.pyNone => Except.ok false
  | PyVal.str s => Except.ok (is_valid_image_file (some s))
  | PyVal.num n =>
    if n = 0 then Except.ok false else Except.error PyExc.attributeError

/-- `is_valid_audio_file` on an arbitrary Python value, with the exception
channel; same shape as `is_valid_image_file_py`. -/
def is_valid_audio_file_py : PyVal → Except PyExc Bool
  | PyVal.pyNone => Except.ok false
  | PyVal.str s => Except.ok (is_valid_audio_file (some s))
  | PyVal.num n =>
    if n = 0 then Except.ok false else Except.error PyExc.attributeError

/-- The specification's reading of "the filename case-insensitively ends with
`ext`": some suffix of the filename case-folds to `ext`. -/
def endsWithCI (s ext : List Char) : Prop :=
  ∃ pre t, pre ++ t = s ∧ t.map Char.toLower = ext

theorem ends_map_iff (f : Char → Char) (s ext : List Char) :
    (∃ pre, pre ++ ext = s.map f) ↔ ∃ pre t, pre ++ t = s ∧ t.map f = ext := by
  constructor
  · rintro ⟨pre, hpre⟩
    refine ⟨s.take pre.length, s.drop pre.length, List.take_append_drop _ _, ?_⟩
    have hmap : (s.drop pre.length).map f = (s.map f).drop pre.length := by
      simp [List.map_drop]
    rw [hmap, ← hpre, List.drop_left]
  · rintro ⟨pre, t, rfl, rfl⟩
    exact ⟨pre.map f, by simp⟩

theorem endsWithList_lower_iff (s ext : List Char) :
    endsWithList (s.map Char.toLower) ext = true ↔ endsWithCI s ext := by
  rw [endsWithList_iff]
  exact ends_map_iff Char.toLower s ext

section Handlers

/-- A sprite or audio document: `{filename, content}`. -/
structure SpriteDoc where
  filename : List Char
  content : List Nat
deriving DecidableEq

/-- A score document: `{player_name, score}`. -/
structure ScoreDoc where
  player_name : List Char
  score : Int
deriving DecidableEq

/-- The document store's three collections.  Sprite and audio records carry
their store identifier, kept in normalized (lowercase hexadecimal) form: two
hex spellings denote the same `ObjectId` iff they agree up to ASCII case. -/
structure DB where
  sprites : List (List Char × SpriteDoc)
  audio : List (List Char × SpriteDoc)
  scores : List ScoreDoc
deriving DecidableEq

/-- The caller-visible status classification of a handler response:
success, bad request (400), not found (404), or the framework's
request-validation rejection (422). -/
inductive HStatus where
  | ok
  | badRequest
  | notFound
  | unprocessable
deriving DecidableEq

/-- An uploaded file as the handlers see it: an optional filename and the
binary content. -/
structure PyFile where
  filename : Option (List Char)
  content : List Nat
deriving DecidableEq

/-- The boolean the handlers get from `validate_object_id` on a string
(the call never raises there; see `validate_object_id_str`). -/
def validObjectId (s : List Char) : Bool := isHex24 s

theorem validate_object_id_str (s : List Char) :
    validate_object_id (PyVal.str s) = Except.ok (validObjectId s) := by
  unfold validate_object_id objectIdTry validObjectId
  cases h : isHex24 s <;> simp [h]

/-- The `ObjectId` value denoted by a validated hex string: hex digits are
case-insensitive, so the value is the case-folded spelling. -/
def oidOf (s : List Char) : List Char := s.map Char.toLower

/-- `update_one`: Mongo updates at most one matching document; the model
resolves the "arbitrary match" to the first one in collection order. -/
def updateFirst {α : Type} (p : α → Bool) (f : α → α) : List α → List α
  | [] => []
  | a :: t => if p a then f a :: t else a :: updateFirst p f t

/-- `delete_one`: remove the first matching document, if any. -/
def deleteFirst {α : Type} (p : α → Bool) : List α → List α
  | [] => []
  | a :: t => if p a then t else a :: deleteFirst p t

/-- The filter `{"_id": ObjectId(sid)}` on a sprite/audio collection. -/
def idMatch (sid : List Char) : List Char × SpriteDoc → Bool :=
  fun p => decide (p.1 = oidOf sid)

/-- The filter `{"player_name": safe}` on the scores collection. -/
def scoreMatch (safe : List Char) : ScoreDoc → Bool :=
  fun r => decide (r.player_name = safe)

/-- `GET /sprite/{sprite_id}`: reject a malformed identifier with 400, then
`find_one`; 404 when absent.  A read issues no store write. -/
def get_sprite (sid : List Char) (db : DB) : HStatus :=
  if validObjectId sid = false then HStatus.badRequest
  else
    match db.sprites.find? (idMatch sid) with
    | some _ => HStatus.ok
    | Option.none => HStatus.notFound

/-- `POST /upload_sprite`: reject a non-image filename with 400 before the
store is touched, otherwise `insert_one`.  `newId` stands for the identifier
the store generates for the inserted document. -/
def upload_sprite (file : PyFile) (newId : List Char) (db : DB) : HStatus × DB :=
  if is_valid_image_file file.filename = false then (HStatus.badRequest, db)
  else
    (HStatus.ok,
     { db with sprites := db.sprites ++ [(newId, ⟨file.filename.getD [], file.content⟩)] })

/-- `PUT /sprite/{sprite_id}`: 400 on a malformed identifier, then 400 on a
non-image filename, then `find_one` (404 when absent), then `update_one`
replacing filename and content. -/
def update_sprite (sid : List Char) (file : PyFile) (db : DB) : HStatus × DB :=
  if validObjectId sid = false then (HStatus.badRequest, db)
  else if is_valid_image_file file.filename = false then (HStatus.badRequest, db)
  else
    match db.sprites.find? (idMatch sid) with
    | Option.none => (HStatus.notFound, db)
    | some _ =>
      let upd := updateFirst (idMatch sid)
        (fun p => (p.1, ⟨file.filename.getD [], file.content⟩)) db.sprites
      (HStatus.ok, { db with sprites := upd })

/-- `DELETE /sprite/{sprite_id}`: 400 on a malformed identifier, then
`delete_one`; the source inspects `deleted_count` after the call, raising 404
when it is zero (in which case the delete touched nothing). -/
def delete_sprite (sid : List Char) (db : DB) : HStatus × DB :=
  if validObjectId sid = false then (HStatus.badRequest, db)
  else
    let deleted := (db.sprites.find? (idMatch sid)).isSome
    let db' : DB := { db with sprites := deleteFirst (idMatch sid) db.sprites }
    if deleted = false then (HStatus.notFound, db') else (HStatus.ok, db')

/-- `GET /audio/{audio_id}`: same shape as `get_sprite` on the audio
collection. -/
def get_audio (aid : List Char) (db : DB) : HStatus :=
  if validObjectId aid = false then HStatus.badRequest
  else
    match db.audio.find? (idMatch aid) with
    | some _ => HStatus.ok
    | Option.none => HStatus.notFound

/-- `POST /upload_audio`: reject a non-MP3 filename with 400 before any store
call, otherwise `insert_one`. -/
def upload_audio (file : PyFile) (newId : List Char) (db : DB) : HStatus × DB :=
  if is_valid_audio_file file.filename = false then (HStatus.badRequest, db)
  else
    (HStatus.ok,
     { db with audio := db.audio ++ [(newId, ⟨file.filename.getD [], file.content⟩)] })

/-- `PUT /audio/{audio_id}`: 400 on a malformed identifier, then 400 on a
non-MP3 filename, then `find_one` (404 when absent), then `update_one`. -/
def update_audio (aid : List Char) (file : PyFile) (db : DB) : HStatus × DB :=
  if validObjectId aid = false then (HStatus.badRequest, db)
  else if is_valid_audio_file file.filename = false then (HStatus.badRequest, db)
  else
    match db.audio.find? (idMatch aid) with
    | Option.none => (HStatus.notFound, db)
    | some _ =>
      let upd := updateFirst (idMatch aid)
        (fun p => (p.1, ⟨file.filename.getD [], file.content⟩)) db.audio
      (HStatus.ok, { db with audio := upd })

/-- `DELETE /audio/{audio_id}`: 400 on a malformed identifier, then
`delete_one` with the 404 check on `deleted_count`. -/
def delete_audio (aid : List Char) (db : DB) : HStatus × DB :=
  if validObjectId aid = false then (HStatus.badRequest, db)
  else
    let deleted := (db.audio.find? (idMatch aid)).isSome
    let db' : DB := { db with audio := deleteFirst (idMatch aid) db.audio }
    if deleted = false then (HStatus.notFound, db') else (HStatus.ok, db')

/-- One character of the `PlayerScore.player_name` pattern
`^[a-zA-Z0-9_ ]+$`. -/
def nameChar (c : Char) : Bool :=
  ('a' ≤ c && c ≤ 'z') || ('A' ≤ c && c ≤ 'Z') || ('0' ≤ c && c ≤ '9') ||
    c == '_' || c == ' '

/-- The `PlayerScore` model's name constraints: length 1..50 and the
alphanumeric/underscore/space pattern. -/
def validPlayerName (s : List Char) : Bool :=
  decide (1 ≤ s.length) && decide (s.length ≤ 50) && s.all nameChar

/-- The `PlayerScore` model as a whole: valid name and `score >= 0`. -/
def validPlayerScore (name : List Char) (v : Int) : Bool :=
  validPlayerName name && decide (0 ≤ v)

/-- `POST /player_score`: the framework validates the request body against
`PlayerScore` (rejecting it with 422 before the handler runs); the handler
then re-sanitizes the player name and `insert_one`s the document. -/
def add_score (name : List Char) (v : Int) (db : DB) : HStatus × DB :=
  if validPlayerScore name v = false then (HStatus.unprocessable, db)
  else (HStatus.ok, { db with scores := db.scores ++ [⟨sanitizeStr name, v⟩] })

/-- `PUT /player_score/{player_name}?updated_score=`: the framework validates
`updated_score >= 0` (422 otherwise); the handler sanitizes the name,
`update_one`s the score of the first match, and raises 404 when
`matched_count` is zero (in which case the update matched nothing). -/
def update_score (name : List Char) (v : Int) (db : DB) : HStatus × DB :=
  if decide (0 ≤ v) = false then (HStatus.unprocessable, db)
  else
    let safe := sanitizeStr name
    let matched := (db.scores.find? (scoreMatch safe)).isSome
    let upd := updateFirst (scoreMatch safe) (fun r => { r with score := v }) db.scores
    let db' : DB := { db with scores := upd }
    if matched = false then (HStatus.notFound, db') else (HStatus.ok, db')

/-- `DELETE /player_score/{player_name}`: sanitize the name, `delete_one`,
404 when `deleted_count` is zero. -/
def delete_score (name : List Char) (db : DB) : HStatus × DB :=
  let safe := sanitizeStr name
  let deleted := (db.scores.find? (scoreMatch safe)).isSome
  let db' : DB := { db with scores := deleteFirst (scoreMatch safe) db.scores }
  if deleted = false then (HStatus.notFound, db') else (HStatus.ok, db')

/-- Modelled from the spec: the endpoint `GET /player_score/{name}` appears in
the specification's interface list but has no handler in `src/`.  Per the
spec's error taxonomy, a keyed read answers "not found" when the keyed record
is absent; the name is sanitized before the lookup, as in the other score
operations. -/
def get_score (name : List Char) (db : DB) : HStatus :=
  match db.scores.find? (scoreMatch (sanitizeStr name)) with
  | some _ => HStatus.ok
  | Option.none => HStatus.notFound

end Handlers

section ListOps

variable {α : Type}

theorem updateFirst_of_find_none (p : α → Bool) (f : α → α) :
    ∀ l : List α, l.find? p = Option.none → updateFirst p f l = l := by
  intro l
  induction l with
  | nil => intro _; rfl
  | cons a t ih =>
    intro h
    cases hp : p a with
    | true => simp [List.find?, hp] at h
    | false =>
      simp only [List.find?, hp] at h
      simp [updateFirst, hp, ih h]

theorem deleteFirst_of_find_none (p : α → Bool) :
    ∀ l : List α, l.find? p = Option.none → deleteFirst p l = l := by
  intro l
  induction l with
  | nil => intro _; rfl
  | cons a t ih =>
    intro h
    cases hp : p a with
    | true => simp [List.find?, hp] at h
    | false =>
      simp only [List.find?, hp] at h
      simp [deleteFirst, hp, ih h]

theorem updateFirst_spec (p : α → Bool) (f : α → α) :
    ∀ l : List α, (l.find? p = Option.none ∧ updateFirst p f l = l) ∨
      ∃ l1 a l2, l = l1 ++ a :: l2 ∧ p a = true ∧ (∀ x ∈ l1, p x = false) ∧
        l.find? p = some a ∧ updateFirst p f l = l1 ++ f a :: l2 := by
  intro l
  induction l with
  | nil => exact Or.inl ⟨rfl, rfl⟩
  | cons a t ih =>
    cases hp : p a with
    | true =>
      refine Or.inr ⟨[], a, t, rfl, hp, ?_, ?_, ?_⟩
      · intro x hx; simp at hx
      · simp [List.find?, hp]
      · simp [updateFirst, hp]
    | false =>
      rcases ih with ⟨hf, h⟩ | ⟨l1, b, l2, rfl, hb, hl1, hf, he⟩
      · refine Or.inl ⟨?_, by simp [updateFirst, hp, h]⟩
        simp [List.find?, hp, hf]
      · refine Or.inr ⟨a :: l1, b, l2, rfl, hb, ?_, ?_, ?_⟩
        · intro x hx
          rcases List.mem_cons.mp hx with rfl | hx'
          · exact hp
          · exact hl1 x hx'
        · simp [List.find?, hp, hf]
        · simp [updateFirst, hp, he]

theorem deleteFirst_spec (p : α → Bool) :
    ∀ l : List α, (l.find? p = Option.none ∧ deleteFirst p l = l) ∨
      ∃ l1 a l2, l = l1 ++ a :: l2 ∧ p a = true ∧ (∀ x ∈ l1, p x = false) ∧
        l.find? p = some a ∧ deleteFirst p l = l1 ++ l2 := by
  intro l
  induction l with
  | nil => exact Or.inl ⟨rfl, rfl⟩
  | cons a t ih =>
    cases hp : p a with
    | true =>
      refine Or.inr ⟨[], a, t, rfl, hp, ?_, ?_, ?_⟩
      · intro x hx; simp at hx
      · simp [List.find?, hp]
      · simp [deleteFirst, hp]
    | false =>
      rcases ih with ⟨hf, h⟩ | ⟨l1, b, l2, rfl, hb, hl1, hf, he⟩
      · refine Or.inl ⟨?_, by simp [deleteFirst, hp, h]⟩
        simp [List.find?, hp, hf]
      · refine Or.inr ⟨a :: l1, b, l2, rfl, hb, ?_, ?_, ?_⟩
        · intro x hx
          rcases List.mem_cons.mp hx with rfl | hx'
          · exact hp
          · exact hl1 x hx'
        · simp [List.find?, hp, hf]
        · simp [deleteFirst, hp, he]

theorem mem_updateFirst (p : α → Bool) (f : α → α) :
    ∀ (l : List α) (x : α), x ∈ updateFirst p f l → x ∈ l ∨ ∃ a, a ∈ l ∧ x = f a := by
  intro l
  induction l with
  | nil => intro x hx; simp [updateFirst] at hx
  | cons a t ih =>
    intro x hx
    cases hp : p a with
    | true =>
      rw [updateFirst, if_pos hp] at hx
      rcases List.mem_cons.mp hx with rfl | hx'
      · exact Or.inr ⟨a, List.mem_cons_self a t, rfl⟩
      · exact Or.inl (List.mem_cons_of_mem _ hx')
    | false =>
      rw [updateFirst, if_neg (by simp [hp])] at hx
      rcases List.mem_cons.mp hx with rfl | hx'
      · exact Or.inl (List.mem_cons_self x t)
      · rcases ih x hx' with h | ⟨b, hb, rfl⟩
        · exact Or.inl (List.mem_cons_of_mem _ h)
        · exact Or.inr ⟨b, List.mem_cons_of_mem _ hb, rfl⟩

theorem mem_deleteFirst (p : α → Bool) :
    ∀ (l : List α) (x : α), x ∈ deleteFirst p l → x ∈ l := by
  intro l
  induction l with
  | nil => intro x hx; simp [deleteFirst] at hx
  | cons a t ih =>
    intro x hx
    cases hp : p a with
    | true =>
      rw [deleteFirst, if_pos hp] at hx
      exact List.mem_cons_of_mem _ hx
    | false =>
      rw [deleteFirst, if_neg (by simp [hp])] at hx
      rcases List.mem_cons.mp hx with rfl | hx'
      · exact List.mem_cons_self x t
      · exact List.mem_cons_of_mem _ (ih x hx')

end ListOps

section HandlerProjections

theorem update_score_snd_scores {v : Int} (name : List Char) (db : DB)
    (hv : 0 ≤ v) :
    (update_score name v db).2.scores =
      updateFirst (scoreMatch (sanitizeStr name))
        (fun r => { r with score := v }) db.scores := by
  have hv' : decide (0 ≤ v) = true := decide_eq_true hv
  simp only [update_score, hv']
  split
  · next h => exact absurd h (by simp)
  · split <;> rfl

theorem delete_score_snd_scores (name : List Char) (db : DB) :
    (delete_score name db).2.scores =
      deleteFirst (scoreMatch (sanitizeStr name)) db.scores := by
  simp only [delete_score]
  split <;> rfl

theorem update_score_keeps_other_collections (name : List Char) (v : Int) (db : DB) :
    (update_score name v db).2.sprites = db.sprites ∧
    (update_score name v db).2.audio = db.audio := by
  simp only [update_score]
  split
  · exact ⟨rfl, rfl⟩
  · split <;> exact ⟨rfl, rfl⟩

theorem delete_score_keeps_other_collections (name : List Char) (db : DB) :
    (delete_score name db).2.sprites = db.sprites ∧
    (delete_score name db).2.audio = db.audio := by
  simp only [delete_score]
  split <;> exact ⟨rfl, rfl⟩

end HandlerProjections

/-- The denylist as the specification words it (C5): the characters `$`,
`\x7b`, `\x7d`, `.`, then the operator-keyword tokens, in the listed order. -/
def spec_denylist : List (List Char) :=
  ["$".data, "\x7b".data, "\x7d".data, ".".data, "$where".data, "$regex".data,
   "$gt".data, "$lt".data, "$gte".data, "$lte".data, "$ne".data, "$nin".data,
   "$and".data, "$or".data, "$not".data, "$nor".data]

/-- Reference sanitizer built from the specification's words (C5): non-string
input is returned unchanged; a string has each denylist entry deleted as a
literal substring, once per entry, in the fixed listed order, with no
iteration to a fixed point. -/
def sanitize_reference (v : PyVal) : PyVal :=
  match v with
  | PyVal.str s => PyVal.str (spec_denylist.foldl (fun r p => pyReplace r p []) s)
  | w => w

/-- C1: for every input string, `validate_object_id` returns `True` exactly on
the 24-character hexadecimal strings, and `False` on every string of a
different length or containing a non-hex character (the boolean is wrapped in
`Except.ok` because the embedding records that the call never raises). -/
theorem validate_object_id_hex_iff : ∀ s : List Char,
    (validate_object_id (PyVal.str s) = Except.ok true ↔
      s.length = 24 ∧ ∀ c ∈ s, isHexChar c = true) ∧
    (validate_object_id (PyVal.str s) = Except.ok false ↔
      ¬(s.length = 24 ∧ ∀ c ∈ s, isHexChar c = true)) := by
  intro s
  have hiff : validObjectId s = true ↔
      (s.length = 24 ∧ ∀ c ∈ s, isHexChar c = true) := by
    simp [validObjectId, isHex24, List.all_eq_true]
  constructor
  · rw [validate_object_id_str]
    simp only [Except.ok.injEq]
    exact hiff
  · rw [validate_object_id_str]
    simp only [Except.ok.injEq]
    rw [← hiff, Bool.eq_false_iff]

/-- C5: `sanitize_input` coincides with the reference sanitizer transcribed
from the specification's description of the denylist and its application
order. -/
theorem sanitize_input_matches_reference :
    ∀ v : PyVal, sanitize_input v = sanitize_reference v := by
  intro v
  cases v <;> rfl

/-- C10: the sanitizer is idempotent — one pass already removes every
character (`$`, `\x7b`, `\x7d`, `.`) that any denylist entry could match, so a
second pass removes nothing. -/
theorem sanitize_input_idempotent :
    ∀ v : PyVal, sanitize_input (sanitize_input v) = sanitize_input v := by
  intro v
  cases v with
  | str s =>
    simp only [sanitize_input, PyVal.str.injEq]
    rw [sanitizeStr_eq_filter (sanitizeStr s)]
    apply List.filter_eq_self.mpr
    intro a ha
    rw [sanitizeStr_eq_filter] at ha
    exact (List.mem_filter.mp ha).2
  | num n => rfl
  | pyNone => rfl

/-- C8 counterexample: the file gates do raise for some input — a truthy
non-string filename (here the integer `1`) passes the falsy check and then
fails on `.lower()` with `AttributeError`, for both gates. -/
theorem gates_raise_on_truthy_non_string :
    is_valid_image_file_py (PyVal.num 1) = Except.error PyExc.attributeError ∧
    is_valid_audio_file_py (PyVal.num 1) = Except.error PyExc.attributeError := by
  constructor <;> rfl

/-- C8 (amended): the identifier validator and the input sanitizer are total
and never raise for any input, non-strings included — the validator's
`except (InvalidId, TypeError)` clause covers every exception the `ObjectId`
constructor can signal, and the sanitizer either rewrites a string or returns
a non-string unchanged; the file gates never raise for a string or falsy
(`None`, `""`, `0`) filename, answering with a plain boolean there, but a
truthy non-string filename raises `AttributeError`, since the source calls
`filename.lower()` without an `isinstance` guard. -/
theorem validators_never_raise_amended :
    (∀ v : PyVal, ∃ b : Bool, validate_object_id v = Except.ok b) ∧
    (∀ v : PyVal,
      (∃ s, v = PyVal.str s ∧ sanitize_input v = PyVal.str (sanitizeStr s)) ∨
      sanitize_input v = v) ∧
    (∀ s : List Char, ∃ b : Bool,
      is_valid_image_file_py (PyVal.str s) = Except.ok b ∧
      is_valid_image_file (some s) = b) ∧
    (∀ s : List Char, ∃ b : Bool,
      is_valid_audio_file_py (PyVal.str s) = Except.ok b ∧
      is_valid_audio_file (some s) = b) ∧
    (is_valid_image_file_py PyVal.pyNone = Except.ok false ∧
     is_valid_audio_file_py PyVal.pyNone = Except.ok false ∧
     is_valid_image_file_py (PyVal.num 0) = Except.ok false ∧
     is_valid_audio_file_py (PyVal.num 0) = Except.ok false) ∧
    (∀ n : Int, n ≠ 0 →
      is_valid_image_file_py (PyVal.num n) = Except.error PyExc.attributeError ∧
      is_valid_audio_file_py (PyVal.num n) = Except.error PyExc.attributeError) := by
  refine ⟨?_, ?_, ?_, ?_, ⟨rfl, rfl, rfl, rfl⟩, ?_⟩
  · intro v
    cases v with
    | str s => exact ⟨validObjectId s, validate_object_id_str s⟩
    | num n => exact ⟨false, rfl⟩
    | pyNone => exact ⟨false, rfl⟩
  · intro v
    cases v with
    | str s => exact Or.inl ⟨s, rfl, rfl⟩
    | num n => exact Or.inr rfl
    | pyNone => exact Or.inr rfl
  · intro s
    exact ⟨is_valid_image_file (some s), rfl, rfl⟩
  · intro s
    exact ⟨is_valid_audio_file (some s), rfl, rfl⟩
  · intro n hn
    constructor <;> simp [is_valid_image_file_py, is_valid_audio_file_py, hn]

/-- C8 witness: the amended theorem applied at the concrete non-zero
integer `2`. -/
theorem validators_never_raise_amended_witness :
    is_valid_image_file_py (PyVal.num 2) = Except.error PyExc.attributeError ∧
    is_valid_audio_file_py (PyVal.num 2) = Except.error PyExc.attributeError :=
  validators_never_raise_amended.2.2.2.2.2 2 (by decide)

/-- C2 counterexample: the sanitizer does not map `"evil$where.png"` to
`"evilpng"` — the `"$"` pass runs first, leaving `"evilwhere.png"`, so the
later `"$where"` token pass finds nothing. -/
theorem sanitize_evil_not_evilpng :
    sanitizeStr ("evil$where.png".data) ≠ "evilpng".data := by
  rw [sanitizeStr_eq_filter]
  decide

/-- C2 (amended): on `"evil$where.png"` the sanitizer deletes the characters
`$` and `.`, yielding exactly `"evilwherepng"`; moreover a score created with
that raw name is rejected by the request model's `player_name` pattern
(which admits only alphanumerics, underscore and space) before any store
write, so nothing is stored under any name. -/
theorem sanitize_evil_amended :
    sanitizeStr ("evil$where.png".data) = "evilwherepng".data ∧
    ∀ (v : Int) (db : DB),
      add_score ("evil$where.png".data) v db = (HStatus.unprocessable, db) := by
  constructor
  · rw [sanitizeStr_eq_filter]
    decide
  · intro v db
    have hname : validPlayerName ("evil$where.png".data) = false := by decide
    have h : validPlayerScore ("evil$where.png".data) v = false := by
      simp [validPlayerScore, hname]
    simp [add_score, h]

/-- No score record in the store carries an operator token in its player
name. -/
def scoreNamesOk (db : DB) : Prop :=
  ∀ r ∈ db.scores, ∀ t ∈ opTokens, ¬ isSubstringOf t r.player_name

/-- C3: the sanitizer's output never contains an operator token from the
denylist (in particular `"$where"`, whatever the input), and the
operator-token-freedom of all stored player names is preserved by each
mutating score operation. -/
theorem sanitize_output_token_free :
    (∀ (s t : List Char), t ∈ opTokens → ¬ isSubstringOf t (sanitizeStr s)) ∧
    (∀ (name : List Char) (v : Int) (db : DB), scoreNamesOk db →
      scoreNamesOk (add_score name v db).2 ∧
      scoreNamesOk (update_score name v db).2 ∧
      scoreNamesOk (delete_score name db).2) := by
  constructor
  · intro s t ht
    exact no_token_in_sanitizeStr ht s
  · intro name v db hdb
    refine ⟨?_, ?_, ?_⟩
    · intro r hr
      unfold add_score at hr
      split at hr
      · exact hdb r hr
      · simp only [List.mem_append, List.mem_singleton] at hr
        rcases hr with hr | rfl
        · exact hdb r hr
        · intro t ht
          exact no_token_in_sanitizeStr ht name
    · intro r hr
      by_cases hv : 0 ≤ v
      · rw [update_score_snd_scores name db hv] at hr
        rcases mem_updateFirst _ _ _ _ hr with h | ⟨a, ha, rfl⟩
        · exact hdb r h
        · intro t ht
          exact hdb a ha t ht
      · have hv' : decide (0 ≤ v) = false := decide_eq_false hv
        simp only [update_score, hv'] at hr
        exact hdb r hr
    · intro r hr
      rw [delete_score_snd_scores name db] at hr
      exact hdb r (mem_deleteFirst _ _ _ hr)

/-- C3 witness: at a concrete input and a concrete store. -/
theorem sanitize_output_token_free_witness :
    ¬ isSubstringOf ("$where".data) (sanitizeStr ("a$where".data)) ∧
    scoreNamesOk (add_score ("alice".data) 10 (DB.mk [] [] [])).2 := by
  constructor
  · exact sanitize_output_token_free.1 ("a$where".data) ("$where".data) (by decide)
  · exact (sanitize_output_token_free.2 ("alice".data) 10 (DB.mk [] [] [])
      (by intro r hr; simp at hr)).1

/-- C4: each file gate accepts exactly the non-empty filenames whose suffix
case-folds to an allowed extension — `.png`/`.jpg`/`.jpeg` for images,
`.mp3` for audio — and rejects a missing or empty filename. -/
theorem file_gates_iff : ∀ f : Option (List Char),
    (is_valid_image_file Option.none = false ∧
     is_valid_image_file (some []) = false ∧
     is_valid_audio_file Option.none = false ∧
     is_valid_audio_file (some []) = false) ∧
    (is_valid_image_file f = true ↔
      ∃ s, f = some s ∧ s ≠ [] ∧
        (endsWithCI s (".png".data) ∨ endsWithCI s (".jpg".data) ∨
          endsWithCI s (".jpeg".data))) ∧
    (is_valid_audio_file f = true ↔
      ∃ s, f = some s ∧ s ≠ [] ∧ endsWithCI s (".mp3".data)) := by
  intro f
  refine ⟨⟨rfl, rfl, rfl, rfl⟩, ?_, ?_⟩
  · cases f with
    | none => simp [is_valid_image_file]
    | some s =>
      by_cases hs : s = []
      · subst hs
        simp [is_valid_image_file]
      · simp only [is_valid_image_file, if_neg hs, Bool.or_eq_true,
          endsWithList_lower_iff, Option.some.injEq]
        constructor
        · intro h
          exact ⟨s, rfl, hs, by tauto⟩
        · rintro ⟨s', hs', _, h⟩
          subst hs'
          tauto
  · cases f with
    | none => simp [is_valid_audio_file]
    | some s =>
      by_cases hs : s = []
      · subst hs
        simp [is_valid_audio_file]
      · simp only [is_valid_audio_file, if_neg hs, endsWithList_lower_iff,
          Option.some.injEq]
        constructor
        · intro h
          exact ⟨s, rfl, hs, h⟩
        · rintro ⟨s', hs', _, h⟩
          subst hs'
          exact h

/-- C6: in each mutating sprite/audio handler, a failed validation (malformed
identifier or disallowed file type) yields the bad-request response with the
store left exactly as it was: the checks run before any store write. -/
theorem validation_failure_no_mutation :
    ∀ (file : PyFile) (sid newId : List Char) (db : DB),
      (is_valid_image_file file.filename = false →
        upload_sprite file newId db = (HStatus.badRequest, db)) ∧
      (is_valid_audio_file file.filename = false →
        upload_audio file newId db = (HStatus.badRequest, db)) ∧
      (validObjectId sid = false →
        update_sprite sid file db = (HStatus.badRequest, db)) ∧
      (validObjectId sid = true → is_valid_image_file file.filename = false →
        update_sprite sid file db = (HStatus.badRequest, db)) ∧
      (validObjectId sid = false →
        update_audio sid file db = (HStatus.badRequest, db)) ∧
      (validObjectId sid = true → is_valid_audio_file file.filename = false →
        update_audio sid file db = (HStatus.badRequest, db)) ∧
      (validObjectId sid = false →
        delete_sprite sid db = (HStatus.badRequest, db)) ∧
      (validObjectId sid = false →
        delete_audio sid db = (HStatus.badRequest, db)) := by
  intro file sid newId db
  refine ⟨?_, ?_, ?_, ?_, ?_, ?_, ?_, ?_⟩
  · intro h; simp [upload_sprite, h]
  · intro h; simp [upload_audio, h]
  · intro h; simp [update_sprite, h]
  · intro h1 h2; simp [update_sprite, h1, h2]
  · intro h; simp [update_audio, h]
  · intro h1 h2; simp [update_audio, h1, h2]
  · intro h; simp [delete_sprite, h]
  · intro h; simp [delete_audio, h]

/-- C6 witness: a concrete rejected upload, update and delete against a
concrete store, for both asset categories. -/
theorem validation_failure_no_mutation_witness :
    upload_sprite ⟨some ("a.gif".data), []⟩ [] (DB.mk [] [] []) =
      (HStatus.badRequest, DB.mk [] [] []) ∧
    upload_audio ⟨some ("a.gif".data), []⟩ [] (DB.mk [] [] []) =
      (HStatus.badRequest, DB.mk [] [] []) ∧
    update_sprite ("xyz".data) ⟨some ("a.gif".data), []⟩ (DB.mk [] [] []) =
      (HStatus.badRequest, DB.mk [] [] []) ∧
    update_sprite ("0123456789abcdef01234567".data) ⟨some ("a.gif".data), []⟩
      (DB.mk [] [] []) = (HStatus.badRequest, DB.mk [] [] []) ∧
    update_audio ("xyz".data) ⟨some ("a.gif".data), []⟩ (DB.mk [] [] []) =
      (HStatus.badRequest, DB.mk [] [] []) ∧
    update_audio ("0123456789abcdef01234567".data) ⟨some ("a.gif".data), []⟩
      (DB.mk [] [] []) = (HStatus.badRequest, DB.mk [] [] []) ∧
    delete_sprite ("xyz".data) (DB.mk [] [] []) =
      (HStatus.badRequest, DB.mk [] [] []) ∧
    delete_audio ("xyz".data) (DB.mk [] [] []) =
      (HStatus.badRequest, DB.mk [] [] []) := by
  refine ⟨?_, ?_, ?_, ?_, ?_, ?_, ?_, ?_⟩
  · exact (validation_failure_no_mutation ⟨some ("a.gif".data), []⟩ ("xyz".data)
      [] (DB.mk [] [] [])).1 (by decide)
  · exact (validation_failure_no_mutation ⟨some ("a.gif".data), []⟩ ("xyz".data)
      [] (DB.mk [] [] [])).2.1 (by decide)
  · exact (validation_failure_no_mutation ⟨some ("a.gif".data), []⟩ ("xyz".data)
      [] (DB.mk [] [] [])).2.2.1 (by decide)
  · exact (validation_failure_no_mutation ⟨some ("a.gif".data), []⟩
      ("0123456789abcdef01234567".data) [] (DB.mk [] [] [])).2.2.2.1
      (by decide) (by decide)
  · exact (validation_failure_no_mutation ⟨some ("a.gif".data), []⟩ ("xyz".data)
      [] (DB.mk [] [] [])).2.2.2.2.1 (by decide)
  · exact (validation_failure_no_mutation ⟨some ("a.gif".data), []⟩
      ("0123456789abcdef01234567".data) [] (DB.mk [] [] [])).2.2.2.2.2.1
      (by decide) (by decide)
  · exact (validation_failure_no_mutation ⟨some ("a.gif".data), []⟩ ("xyz".data)
      [] (DB.mk [] [] [])).2.2.2.2.2.2.1 (by decide)
  · exact (validation_failure_no_mutation ⟨some ("a.gif".data), []⟩ ("xyz".data)
      [] (DB.mk [] [] [])).2.2.2.2.2.2.2 (by decide)

/-- C7 counterexample: with two score records for the same player name,
deleting the score succeeds (`delete_one` removes only the first match), yet a
read-back of the same key still finds the other record — not "not found" as
the claim states. -/
theorem delete_then_read_back_found :
    (delete_score ("alice".data)
      (DB.mk [] [] [⟨"alice".data, 1⟩, ⟨"alice".data, 2⟩])).1 = HStatus.ok ∧
    get_score ("alice".data)
      (delete_score ("alice".data)
        (DB.mk [] [] [⟨"alice".data, 1⟩, ⟨"alice".data, 2⟩])).2 ≠
      HStatus.notFound := by
  have hs : sanitizeStr ("alice".data) = "alice".data := by
    rw [sanitizeStr_eq_filter]
    decide
  constructor
  · simp [delete_score, hs, scoreMatch, List.find?, deleteFirst]
  · simp [delete_score, get_score, hs, scoreMatch, List.find?, deleteFirst]

/-- C7 (amended): every keyed read, update or delete invoked with a
well-formed key matching no record answers "not found" and leaves the store
unchanged; and after a delete of a score, a read-back of the same key yields
"not found" provided the store held at most one record with that sanitized
name (with duplicates, `delete_one` removes only the first match and the
read-back can still find another). -/
theorem keyed_absent_not_found :
    ∀ (sid name : List Char) (file : PyFile) (v : Int) (db : DB),
      (validObjectId sid = true →
        db.sprites.find? (idMatch sid) = Option.none →
        get_sprite sid db = HStatus.notFound) ∧
      (validObjectId sid = true → is_valid_image_file file.filename = true →
        db.sprites.find? (idMatch sid) = Option.none →
        update_sprite sid file db = (HStatus.notFound, db)) ∧
      (validObjectId sid = true →
        db.sprites.find? (idMatch sid) = Option.none →
        delete_sprite sid db = (HStatus.notFound, db)) ∧
      (validObjectId sid = true →
        db.audio.find? (idMatch sid) = Option.none →
        get_audio sid db = HStatus.notFound) ∧
      (validObjectId sid = true → is_valid_audio_file file.filename = true →
        db.audio.find? (idMatch sid) = Option.none →
        update_audio sid file db = (HStatus.notFound, db)) ∧
      (validObjectId sid = true →
        db.audio.find? (idMatch sid) = Option.none →
        delete_audio sid db = (HStatus.notFound, db)) ∧
      (0 ≤ v → db.scores.find? (scoreMatch (sanitizeStr name)) = Option.none →
        update_score name v db = (HStatus.notFound, db)) ∧
      (db.scores.find? (scoreMatch (sanitizeStr name)) = Option.none →
        delete_score name db = (HStatus.notFound, db)) ∧
      (db.scores.find? (scoreMatch (sanitizeStr name)) = Option.none →
        get_score name db = HStatus.notFound) ∧
      (db.scores.countP (scoreMatch (sanitizeStr name)) ≤ 1 →
        get_score name (delete_score name db).2 = HStatus.notFound) := by
  intro sid name file v db
  refine ⟨?_, ?_, ?_, ?_, ?_, ?_, ?_, ?_, ?_, ?_⟩
  · intro h1 hf
    simp [get_sprite, h1, hf]
  · intro h1 h2 hf
    simp [update_sprite, h1, h2, hf]
  · intro h1 hf
    simp [delete_sprite, h1, hf, deleteFirst_of_find_none _ _ hf]
  · intro h1 hf
    simp [get_audio, h1, hf]
  · intro h1 h2 hf
    simp [update_audio, h1, h2, hf]
  · intro h1 hf
    simp [delete_audio, h1, hf, deleteFirst_of_find_none _ _ hf]
  · intro hv hf
    have hv' : decide (0 ≤ v) = true := decide_eq_true hv
    simp [update_score, hv', hf, updateFirst_of_find_none _ _ _ hf]
  · intro hf
    simp [delete_score, hf, deleteFirst_of_find_none _ _ hf]
  · intro hf
    simp [get_score, hf]
  · intro hcnt
    rcases deleteFirst_spec (scoreMatch (sanitizeStr name)) db.scores with
      ⟨hf, he⟩ | ⟨l1, a, l2, hsplit, ha, hl1, hfind, he⟩
    · have h2 : (delete_score name db).2.scores = db.scores := by
        rw [delete_score_snd_scores, he]
      simp [get_score, h2, hf]
    · have hc1 : List.countP (scoreMatch (sanitizeStr name)) l1 = 0 := by
        apply List.countP_eq_zero.mpr
        intro x hx
        simp [hl1 x hx]
      have hsum : List.countP (scoreMatch (sanitizeStr name)) db.scores =
          List.countP (scoreMatch (sanitizeStr name)) l1 +
            (List.countP (scoreMatch (sanitizeStr name)) l2 + 1) := by
        rw [hsplit]
        simp [List.countP_append, List.countP_cons, ha]
      rw [hsum, hc1] at hcnt
      have hc2 : List.countP (scoreMatch (sanitizeStr name)) l2 = 0 := by omega
      have hnone : (l1 ++ l2).find? (scoreMatch (sanitizeStr name)) =
          Option.none := by
        apply List.find?_eq_none.mpr
        intro x hx
        rcases List.mem_append.mp hx with h | h
        · simp [hl1 x h]
        · have := List.countP_eq_zero.mp hc2 x h
          simpa using this
      have h2 : (delete_score name db).2.scores = l1 ++ l2 := by
        rw [delete_score_snd_scores, he]
      simp [get_score, h2, hnone]

/-- C7 witness: absent keys against a concrete empty store, covering the
sprite, audio and score keyed operations. -/
theorem keyed_absent_not_found_witness :
    get_sprite ("0123456789abcdef01234567".data) (DB.mk [] [] []) =
      HStatus.notFound ∧
    update_sprite ("0123456789abcdef01234567".data) ⟨some ("a.png".data), []⟩
      (DB.mk [] [] []) = (HStatus.notFound, DB.mk [] [] []) ∧
    delete_sprite ("0123456789abcdef01234567".data) (DB.mk [] [] []) =
      (HStatus.notFound, DB.mk [] [] []) ∧
    get_audio ("0123456789abcdef01234567".data) (DB.mk [] [] []) =
      HStatus.notFound ∧
    update_audio ("0123456789abcdef01234567".data) ⟨some ("song.mp3".data), []⟩
      (DB.mk [] [] []) = (HStatus.notFound, DB.mk [] [] []) ∧
    delete_audio ("0123456789abcdef01234567".data) (DB.mk [] [] []) =
      (HStatus.notFound, DB.mk [] [] []) ∧
    update_score ("alice".data) 5 (DB.mk [] [] []) =
      (HStatus.notFound, DB.mk [] [] []) ∧
    delete_score ("alice".data) (DB.mk [] [] []) =
      (HStatus.notFound, DB.mk [] [] []) ∧
    get_score ("alice".data) (DB.mk [] [] []) = HStatus.notFound ∧
    get_score ("alice".data)
      (delete_score ("alice".data) (DB.mk [] [] [])).2 = HStatus.notFound := by
  refine ⟨?_, ?_, ?_, ?_, ?_, ?_, ?_, ?_, ?_, ?_⟩
  · exact (keyed_absent_not_found ("0123456789abcdef01234567".data)
      ("alice".data) ⟨some ("a.png".data), []⟩ 5 (DB.mk [] [] [])).1
      (by decide) rfl
  · exact (keyed_absent_not_found ("0123456789abcdef01234567".data)
      ("alice".data) ⟨some ("a.png".data), []⟩ 5 (DB.mk [] [] [])).2.1
      (by decide) (by decide) rfl
  · exact (keyed_absent_not_found ("0123456789abcdef01234567".data)
      ("alice".data) ⟨some ("a.png".data), []⟩ 5 (DB.mk [] [] [])).2.2.1
      (by decide) rfl
  · exact (keyed_absent_not_found ("0123456789abcdef01234567".data)
      ("alice".data) ⟨some ("song.mp3".data), []⟩ 5 (DB.mk [] [] [])).2.2.2.1
      (by decide) rfl
  · exact (keyed_absent_not_found ("0123456789abcdef01234567".data)
      ("alice".data) ⟨some ("song.mp3".data), []⟩ 5 (DB.mk [] [] [])).2.2.2.2.1
      (by decide) (by decide) rfl
  · exact (keyed_absent_not_found ("0123456789abcdef01234567".data)
      ("alice".data) ⟨some ("song.mp3".data), []⟩ 5 (DB.mk [] [] [])).2.2.2.2.2.1
      (by decide) rfl
  · exact (keyed_absent_not_found ("0123456789abcdef01234567".data)
      ("alice".data) ⟨some ("a.png".data), []⟩ 5
      (DB.mk [] [] [])).2.2.2.2.2.2.1 (by decide) rfl
  · exact (keyed_absent_not_found ("0123456789abcdef01234567".data)
      ("alice".data) ⟨some ("a.png".data), []⟩ 5
      (DB.mk [] [] [])).2.2.2.2.2.2.2.1 rfl
  · exact (keyed_absent_not_found ("0123456789abcdef01234567".data)
      ("alice".data) ⟨some ("a.png".data), []⟩ 5
      (DB.mk [] [] [])).2.2.2.2.2.2.2.2.1 rfl
  · exact (keyed_absent_not_found ("0123456789abcdef01234567".data)
      ("alice".data) ⟨some ("a.png".data), []⟩ 5
      (DB.mk [] [] [])).2.2.2.2.2.2.2.2.2 (by simp)

/-- C9: `update_score` and `delete_score` touch at most one matching score
record — the first match in collection order — and leave every other record
(and the sprite and audio collections) unchanged, whatever the store holds,
duplicate player names included. -/
theorem score_mutations_touch_at_most_one :
    ∀ (name : List Char) (v : Int) (db : DB),
      ((update_score name v db).2.sprites = db.sprites ∧
       (update_score name v db).2.audio = db.audio ∧
       (delete_score name db).2.sprites = db.sprites ∧
       (delete_score name db).2.audio = db.audio) ∧
      ((update_score name v db).2.scores = db.scores ∨
        ∃ l1 r0 l2, db.scores = l1 ++ r0 :: l2 ∧
          r0.player_name = sanitizeStr name ∧
          (∀ x ∈ l1, x.player_name ≠ sanitizeStr name) ∧
          (update_score name v db).2.scores =
            l1 ++ { r0 with score := v } :: l2) ∧
      ((delete_score name db).2.scores = db.scores ∨
        ∃ l1 r0 l2, db.scores = l1 ++ r0 :: l2 ∧
          r0.player_name = sanitizeStr name ∧
          (∀ x ∈ l1, x.player_name ≠ sanitizeStr name) ∧
          (delete_score name db).2.scores = l1 ++ l2) := by
  intro name v db
  refine ⟨⟨(update_score_keeps_other_collections name v db).1,
      (update_score_keeps_other_collections name v db).2,
      (delete_score_keeps_other_collections name db).1,
      (delete_score_keeps_other_collections name db).2⟩, ?_, ?_⟩
  · by_cases hv : 0 ≤ v
    · rw [update_score_snd_scores name db hv]
      rcases updateFirst_spec (scoreMatch (sanitizeStr name))
          (fun r => { r with score := v }) db.scores with
        ⟨hf, he⟩ | ⟨l1, a, l2, hsplit, ha, hl1, hfind, he⟩
      · exact Or.inl he
      · refine Or.inr ⟨l1, a, l2, hsplit, of_decide_eq_true ha, ?_, he⟩
        intro x hx
        simpa [scoreMatch] using hl1 x hx
    · have hv' : decide (0 ≤ v) = false := decide_eq_false hv
      left
      simp [update_score, hv']
  · rw [delete_score_snd_scores name db]
    rcases deleteFirst_spec (scoreMatch (sanitizeStr name)) db.scores with
      ⟨hf, he⟩ | ⟨l1, a, l2, hsplit, ha, hl1, hfind, he⟩
    · exact Or.inl he
    · refine Or.inr ⟨l1, a, l2, hsplit, of_decide_eq_true ha, ?_, he⟩
      intro x hx
      simpa [scoreMatch] using hl1 x hx

end MainPy
